import Mathlib

/-!
Verification of the mjlib telemetry FileWriter (TLOG v3) and the
multiplex protocol server frame decoder.

The repository excerpt contains the FileWriter unit tests
(file_writer_test.cc) and the multiplex protocol header
(multiplex_protocol.h); the implementations live outside the excerpt.
The definitions below are therefore modelled from the specification and
checked against the exact byte vectors that the unit tests in the
excerpt pin down.  Bytes are modelled as natural numbers below 256 and
files as lists of such bytes.
-/

namespace Tlog

/-- Base-128 little-endian varuint encoder, structural on an explicit
fuel so that concrete instances evaluate in the kernel.  Seven data
bits per byte, continuation bit in the MSB. -/
def varuintGo : Nat → Nat → List Nat
  | 0, n => [n]
  | fuel + 1, n => if n < 128 then [n] else (n % 128 + 128) :: varuintGo fuel (n / 128)

/-- Base-128 little-endian varuint encoding of an arbitrary natural
number.  Fuel of n + 1 bytes is always sufficient. -/
def varuint (n : Nat) : List Nat := varuintGo (n + 1) n

/-- Varuint decoder: returns the decoded value and the unconsumed
tail, or none if the bytes run out while a continuation bit is set. -/
def parseVaruint : List Nat → Option (Nat × List Nat)
  | [] => none
  | b :: rest =>
      if b < 128 then some (b, rest)
      else
        match parseVaruint rest with
        | some (v, r) => some (b - 128 + 128 * v, r)
        | none => none

/-- Two-byte little-endian encoding. -/
def u16le (n : Nat) : List Nat := [n % 256, n / 256 % 256]

/-- Four-byte little-endian encoding. -/
def u32le (n : Nat) : List Nat :=
  [n % 256, n / 256 % 256, n / 65536 % 256, n / 16777216 % 256]

/-- Eight-byte little-endian encoding. -/
def u64le (n : Nat) : List Nat :=
  [n % 256, n / 256 % 256, n / 65536 % 256, n / 16777216 % 256,
   n / 4294967296 % 256, n / 1099511627776 % 256,
   n / 281474976710656 % 256, n / 72057594037927936 % 256]

/-- Value of the first four bytes of a list read as a little-endian
u32. -/
def decodeU32le (l : List Nat) : Nat :=
  l.getD 0 0 + 256 * (l.getD 1 0 + 256 * (l.getD 2 0 + 256 * l.getD 3 0))

/-- Signed 64-bit little-endian encoding: two's complement of the
integer reduced modulo 2^64. -/
def i64le (t : Int) : List Nat := u64le (Int.toNat (Int.emod t (2 ^ 64)))

/-- Modelled from the spec: days between the civil date y-m-d and the
epoch 1970-01-01, for dates at or after year 1 (the standard civil
calendar era computation).  The boost ptime to microsecond conversion
performed by the missing file_writer.cc is modelled through this. -/
def rataDie (y m d : Nat) : Nat :=
  let yAdj := if m ≤ 2 then y - 1 else y
  let era := yAdj / 400
  let yoe := yAdj % 400
  let mp := if m > 2 then m - 3 else m + 9
  let doy := (153 * mp + 2) / 5 + d - 1
  let doe := yoe * 365 + yoe / 4 - yoe / 100 + doy
  era * 146097 + doe

/-- Days since the epoch 1970-01-01 of a civil date. -/
def daysSinceEpoch (y m d : Nat) : Int := (rataDie y m d : Int) - 719468

/-- Modelled from the spec: microseconds since 1970-01-01 00:00:00 UTC
of a civil date and time of day, as a signed 64-bit quantity. -/
def microsSinceEpoch (y m d h mi s : Nat) : Int :=
  (daysSinceEpoch y m d * 86400 + (h * 3600 + mi * 60 + s : Nat)) * 1000000

/-- ASCII bytes of the file header magic TLOG0003 followed by a zero
byte. -/
def kHeader : List Nat := [84, 76, 79, 71, 48, 48, 48, 51, 0]

/-- ASCII bytes of the trailing index magic TLOGIDEX. -/
def kIdexMagic : List Nat := [84, 76, 79, 71, 73, 68, 69, 88]

/-- One index entry: the identifier, the absolute offset of its schema
block if written, and the absolute offset of its most recent data
block if any. -/
structure Entry where
  id : Nat
  schemaOffset : Option Nat
  finalRecordOffset : Option Nat
deriving DecidableEq, Repr

/-- Modelled from the spec: the state of a FileWriter.  file_writer.cc
is not part of the excerpt; the state is reconstructed from the public
contract in the spec and the unit tests.  The file is the byte
sequence written so far, bindings maps record names (UTF-8 byte
strings) to identifiers in binding order, reservedIds lists the
identifiers bound through ReserveIdentifier, and entries carries the
per-identifier index data in binding order. -/
structure State where
  isOpen : Bool
  file : List Nat
  bindings : List (List Nat × Nat)
  reservedIds : List Nat
  entries : List Entry
deriving DecidableEq, Repr

/-- A default-constructed FileWriter: not open, nothing written, no
identifiers. -/
def initState : State := ⟨false, [], [], [], []⟩

/-- Name lookup in the binding list. -/
def lookupName : List (List Nat × Nat) → List Nat → Option Nat
  | [], _ => none
  | (n, i) :: rest, name => if n = name then some i else lookupName rest name

/-- Smallest candidate identifier at or above n that is not taken,
scanning with explicit fuel. -/
def freshIdGo (taken : List Nat) : Nat → Nat → Nat
  | _, 0 => 0
  | n, fuel + 1 => if taken.contains n then freshIdGo taken (n + 1) fuel else n

/-- Modelled from the spec: the identifier auto-allocation policy.
The spec leaves the draw sequence open provided ids are unique, never
collide with reservations, and are stable per name; the unit test
FileWriterWriteSchema pins the first allocated id to 1, so the model
allocates the smallest free identifier starting from 1. -/
def freshId (taken : List Nat) : Nat := freshIdGo taken 1 (taken.length + 1)

/-- Modelled from the spec: AllocateIdentifier.  Returns the existing
id when the name is already bound, otherwise binds the name to a fresh
identifier and creates its index entry.  Pure allocation: the file and
open flag are untouched. -/
def AllocateIdentifier (name : List Nat) (s : State) : Nat × State :=
  match lookupName s.bindings name with
  | some i => (i, s)
  | none =>
      let i := freshId (s.bindings.map Prod.snd)
      (i, { s with
              bindings := s.bindings ++ [(name, i)],
              entries := s.entries ++ [⟨i, none, none⟩] })

/-- Modelled from the spec: ReserveIdentifier.  Binds the name to the
explicit id; fails without effect when the name or the id is already
taken or the id is outside the legal range of one to 2^31. -/
def ReserveIdentifier (name : List Nat) (id : Nat) (s : State) : Bool × State :=
  if (lookupName s.bindings name).isSome
      || (s.bindings.map Prod.snd).contains id
      || id = 0 || 2 ^ 31 ≤ id then
    (false, s)
  else
    (true, { s with
               bindings := s.bindings ++ [(name, id)],
               reservedIds := s.reservedIds ++ [id],
               entries := s.entries ++ [⟨id, none, none⟩] })

/-- Modelled from the spec: Open writes the nine-byte file header
immediately; a second Open fails with AlreadyOpen and has no effect. -/
def Open (s : State) : State :=
  if s.isOpen then s else { s with isOpen := true, file := s.file ++ kHeader }

/-- Record the schema offset of an identifier in the index data. -/
def setSchemaOffset (es : List Entry) (id off : Nat) : List Entry :=
  es.map fun e => if e.id == id then { e with schemaOffset := some off } else e

/-- Record the final record offset of an identifier in the index
data. -/
def setFinalOffset (es : List Entry) (id off : Nat) : List Entry :=
  es.map fun e => if e.id == id then { e with finalRecordOffset := some off } else e

/-- Modelled from the spec: WriteSchema emits a Schema block with body
id varuint, flags byte zero, name length varuint, name bytes and
schema bytes, and records the block start as the identifier's schema
offset.  Usage errors (writer not open, unknown identifier, schema
already written) leave the state unchanged. -/
def WriteSchema (id : Nat) (schema : List Nat) (s : State) : State :=
  if !s.isOpen then s else
  match s.bindings.find? (fun p => p.2 == id) with
  | none => s
  | some (name, _) =>
      match s.entries.find? (fun e => e.id == id) with
      | none => s
      | some e =>
          if e.schemaOffset.isSome then s else
          let off := s.file.length
          let body := varuint id ++ [0] ++ varuint name.length ++ name ++ schema
          { s with
              file := s.file ++ [1] ++ varuint body.length ++ body,
              entries := setSchemaOffset s.entries id off }

/-- Modelled from the spec: WriteData in the compression-disabled
configuration exercised by the unit tests (default_compression =
false; the snappy codec is an external collaborator and is not part of
the excerpt).  The body is id varuint, a flags byte with the
previous-offset and timestamp bits set, the previous-offset varuint
(zero when this is the identifier's first data block, otherwise the
distance back to the previous one), the timestamp as a signed 64-bit
little-endian microsecond count, then the payload.  The block start
becomes the identifier's final record offset.  A data block requires
the schema to have been written first. -/
def WriteData (ts : Int) (id : Nat) (payload : List Nat) (s : State) : State :=
  if !s.isOpen then s else
  match s.entries.find? (fun e => e.id == id) with
  | none => s
  | some e =>
      if e.schemaOffset.isNone then s else
      let off := s.file.length
      let prev : Nat :=
        match e.finalRecordOffset with
        | none => 0
        | some o => off - o
      let body := varuint id ++ [3] ++ varuint prev ++ i64le ts ++ payload
      { s with
          file := s.file ++ [2] ++ varuint body.length ++ body,
          entries := setFinalOffset s.entries id off }

/-- Modelled from the spec: WriteBlock emits a caller-filled buffer as
a block of the given type; it performs no identifier or index
bookkeeping. -/
def WriteBlock (btype : Nat) (buf : List Nat) (s : State) : State :=
  if !s.isOpen then s else
  { s with file := s.file ++ [btype] ++ varuint buf.length ++ buf }

/-- Bytes of one index entry: id varuint, schema offset as u64 (zero
when no schema was written), final record offset as u64 (all ones when
no data block was written). -/
def entryBytes (e : Entry) : List Nat :=
  varuint e.id ++ u64le (e.schemaOffset.getD 0)
    ++ u64le (e.finalRecordOffset.getD (2 ^ 64 - 1))

/-- Index block body before the footer: flags byte zero, entry count
varuint, then the entries. -/
def indexCore (es : List Entry) : List Nat :=
  [0] ++ varuint es.length ++ (es.map entryBytes).flatten

/-- Declared size of the Index block: its body including the twelve
footer bytes, as the unit tests pin down (14 for an empty index, 31
for one entry with a one-byte id). -/
def indexSize (es : List Entry) : Nat := (indexCore es).length + 12

/-- Total length in bytes of the Index block from its type byte
through the trailing magic; this is the value stored in the footer
u32. -/
def indexTrailerTotal (es : List Entry) : Nat :=
  1 + (varuint (indexSize es)).length + indexSize es

/-- The complete Index block: type byte 3, size varuint, flags and
entries, then the footer consisting of the u32 total and the magic
TLOGIDEX. -/
def indexBlock (es : List Entry) : List Nat :=
  [3] ++ varuint (indexSize es) ++ indexCore es
    ++ u32le (indexTrailerTotal es) ++ kIdexMagic

/-- Modelled from the spec: Close emits the Index block with its
footer and marks the writer closed; closing a writer that is not open
has no effect. -/
def Close (s : State) : State :=
  if !s.isOpen then s else
  { s with isOpen := false, file := s.file ++ indexBlock s.entries }

/-- Modelled from the spec: destruction runs Close when the writer is
still open and is a no-op otherwise (scoped-release cleanup). -/
def Destruct (s : State) : State := if s.isOpen then Close s else s

/-- The write operations a caller can perform between Open and
Close. -/
inductive Op where
  | allocate (name : List Nat)
  | reserve (name : List Nat) (id : Nat)
  | writeSchema (id : Nat) (schema : List Nat)
  | writeData (ts : Int) (id : Nat) (payload : List Nat)
  | writeBlock (btype : Nat) (buf : List Nat)
deriving DecidableEq, Repr

/-- One step of the writer API. -/
def step (s : State) : Op → State
  | .allocate n => (AllocateIdentifier n s).2
  | .reserve n i => (ReserveIdentifier n i s).2
  | .writeSchema i sch => WriteSchema i sch s
  | .writeData ts i p => WriteData ts i p s
  | .writeBlock t b => WriteBlock t b s

/-- Run a sequence of writer calls. -/
def run (ops : List Op) (s : State) : State := ops.foldl step s

/-- Index entries held by the writer after opening a fresh writer and
running the calls. -/
def entriesAfter (ops : List Op) : List Entry := (run ops (Open initState)).entries

/-- The file produced by a fresh writer that is opened, performs the
calls, and is closed. -/
def emittedFile (ops : List Op) : List Nat := (Close (run ops (Open initState))).file

/-- Length of the emitted Index block including its footer; the value
recorded in the footer u32. -/
def trailerSize (ops : List Op) : Nat := (indexBlock (entriesAfter ops)).length

/-- The 25 bytes of the empty log pinned down by the kEmptyLog
constant of the unit tests. -/
def kEmptyLog : List Nat :=
  [84, 76, 79, 71, 48, 48, 48, 51, 0,
   3, 14,
   0, 0,
   16, 0, 0, 0,
   84, 76, 79, 71, 73, 68, 69, 88]

/-- The record name test used throughout the unit tests. -/
def nTest : List Nat := [116, 101, 115, 116]

/-- The schema bytes testschema used throughout the unit tests. -/
def schemaTest : List Nat := [116, 101, 115, 116, 115, 99, 104, 101, 109, 97]

/-- The payload bytes testdata of the uncompressed data test. -/
def dataTest : List Nat := [116, 101, 115, 116, 100, 97, 116, 97]

/-- Calls of the FileWriterWriteSchema unit test. -/
def schemaOps : List Op := [.allocate nTest, .writeSchema 1 schemaTest]

/-- Calls of the FileWriterWriteDataUncompressed unit test. -/
def dataOps : List Op :=
  [.allocate nTest, .writeSchema 1 schemaTest,
   .writeData (microsSinceEpoch 2020 3 10 0 0 0) 1 dataTest]

/-- Calls of the FileWriterWriteBlock unit test: a raw Data-typed
block from a caller-filled buffer. -/
def writeBlockOps : List Op :=
  [.allocate nTest, .writeSchema 1 schemaTest,
   .writeBlock 2 ([1, 0] ++ nTest)]

/-- First 28 bytes shared by the schema-bearing unit tests: header
plus the Schema block for id 1, name test, schema testschema. -/
def kTestHead : List Nat :=
  kHeader ++ [1, 17, 1, 0, 4] ++ nTest ++ schemaTest

/-- Expected bytes of the FileWriterWriteSchema test. -/
def kSchemaLog : List Nat :=
  kTestHead
    ++ [3, 31, 0, 1, 1]
    ++ [9, 0, 0, 0, 0, 0, 0, 0]
    ++ [255, 255, 255, 255, 255, 255, 255, 255]
    ++ [33, 0, 0, 0]
    ++ kIdexMagic

/-- Expected bytes of the FileWriterWriteDataUncompressed test. -/
def kDataLog : List Nat :=
  kTestHead
    ++ [2, 19, 1, 3, 0]
    ++ [0, 32, 7, 205, 116, 160, 5, 0]
    ++ dataTest
    ++ [3, 31, 0, 1, 1]
    ++ [9, 0, 0, 0, 0, 0, 0, 0]
    ++ [28, 0, 0, 0, 0, 0, 0, 0]
    ++ [33, 0, 0, 0]
    ++ kIdexMagic

/-- Expected bytes of the FileWriterWriteBlock test. -/
def kWriteBlockLog : List Nat :=
  kTestHead
    ++ [2, 6, 1, 0] ++ nTest
    ++ [3, 31, 0, 1, 1]
    ++ [9, 0, 0, 0, 0, 0, 0, 0]
    ++ [255, 255, 255, 255, 255, 255, 255, 255]
    ++ [33, 0, 0, 0]
    ++ kIdexMagic

/-- Identifier-only calls: the subset of the API that a writer that
has never been opened supports. -/
inductive IdOp where
  | allocate (name : List Nat)
  | reserve (name : List Nat) (id : Nat)
deriving DecidableEq, Repr

/-- Embedding of identifier-only calls into the full call language. -/
def IdOp.toOp : IdOp → Op
  | .allocate n => Op.allocate n
  | .reserve n i => Op.reserve n i

/-- Well-formedness of the identifier bookkeeping: names are bound at
most once, identifiers are bound at most once, every reserved
identifier is bound, and all identifiers are positive. -/
def WF (s : State) : Prop :=
  (s.bindings.map Prod.fst).Nodup
    ∧ (s.bindings.map Prod.snd).Nodup
    ∧ (∀ i ∈ s.reservedIds, i ∈ s.bindings.map Prod.snd)
    ∧ (∀ i ∈ s.bindings.map Prod.snd, 1 ≤ i)

instance (s : State) : Decidable (WF s) := by
  unfold WF; infer_instance

end Tlog

namespace Multiplex

open Tlog

/-- Modelled from the spec: the CRC-16 CCITT-false shift step
(polynomial 0x1021, no reflection). -/
def crcShift (c : Nat) : Nat :=
  if 32768 ≤ c then ((c % 32768) * 2) ^^^ 4129 else c * 2

/-- Fold one byte into a CRC-16 CCITT-false accumulator. -/
def crc16Step (crc b : Nat) : Nat := crcShift^[8] ((crc ^^^ (b % 256) * 256) % 65536)

/-- CRC-16 CCITT-false of a byte sequence: initial value 0xFFFF, no
final xor. -/
def crc16 (bs : List Nat) : Nat := bs.foldl crc16Step 65535

/-- The four register value representations of the protocol.  The f32
case carries the raw 32-bit pattern: the server only moves such values
between the wire and the application, so no floating-point arithmetic
is modelled. -/
inductive RegValue where
  | i8 (v : Int)
  | i16 (v : Int)
  | i32 (v : Int)
  | f32 (bits : Nat)
deriving DecidableEq, Repr

/-- Result of a register read: a value or an application error
code. -/
inductive RegReadResult where
  | value (v : RegValue)
  | err (e : Nat)
deriving DecidableEq, Repr

/-- The application-provided register server of
MultiplexProtocolServer::Server: Write stores a value and returns an
error code (zero for success), Read returns a value of the requested
type index or an error code. -/
structure RegServer where
  write : Nat → RegValue → Nat
  read : Nat → Nat → RegReadResult

/-- Wire size in bytes of each value type index. -/
def valSize (t : Nat) : Nat := if t = 0 then 1 else if t = 1 then 2 else 4

/-- Two's complement encoding of an integer in the given byte
width. -/
def i2c (v : Int) (bytes : Nat) : Nat := Int.toNat (Int.emod v (2 ^ (8 * bytes)))

/-- Little-endian wire bytes of a register value. -/
def encodeValue : RegValue → List Nat
  | .i8 v => [i2c v 1]
  | .i16 v => u16le (i2c v 2)
  | .i32 v => u32le (i2c v 4)
  | .f32 bits => u32le bits

/-- Signed interpretation of a little-endian byte list of the given
width. -/
def decodeSigned (bs : List Nat) (width : Nat) : Int :=
  let u := (List.range width).foldr (fun i acc => bs.getD i 0 + 256 * acc) 0
  if 2 ^ (8 * width - 1) ≤ u then (u : Int) - 2 ^ (8 * width) else (u : Int)

/-- Decode a register value of the given type index from the leading
wire bytes. -/
def decodeValue (t : Nat) (bs : List Nat) : RegValue :=
  if t = 0 then .i8 (decodeSigned bs 1)
  else if t = 1 then .i16 (decodeSigned bs 2)
  else if t = 2 then .i32 (decodeSigned bs 4)
  else .f32 ((List.range 4).foldr (fun i acc => bs.getD i 0 + 256 * acc) 0)

/-- The error counters of MultiplexProtocolServer::Stats. -/
structure Stats where
  wrong_id : Nat := 0
  checksum_mismatch : Nat := 0
  receive_overrun : Nat := 0
  unknown_subframe : Nat := 0
  missing_subframe : Nat := 0
  malformed_subframe : Nat := 0
deriving DecidableEq, Repr

/-- A delivered frame: source, destination and payload bytes. -/
structure Frame where
  source : Nat
  dest : Nat
  payload : List Nat
deriving DecidableEq, Repr

/-- Per-tunnel state: channel number, ingress bytes received from the
client, egress bytes queued for the next poll. -/
structure Tunnel where
  channel : Nat
  ingress : List Nat
  egress : List Nat
deriving DecidableEq, Repr

/-- Server options that the decoder consults: this node's id and the
receive and transmit buffer capacity. -/
structure Cfg where
  id : Nat
  bufferSize : Nat
deriving DecidableEq, Repr

/-- Accumulator of subframe dispatch: reply subframes built so far,
the counters, and the tunnel states. -/
structure DispatchOut where
  reply : List Nat
  stats : Stats
  tunnels : List Tunnel
deriving DecidableEq, Repr

/-- Append one whole reply subframe if it fits in the transmit buffer;
on overflow count receive_overrun and report that dispatch must
stop. -/
def addReply (cfg : Cfg) (acc : DispatchOut) (sub : List Nat) : DispatchOut × Bool :=
  if acc.reply.length + sub.length ≤ cfg.bufferSize then
    ({ acc with reply := acc.reply ++ sub }, true)
  else
    ({ acc with stats := { acc.stats with receive_overrun := acc.stats.receive_overrun + 1 } },
     false)

/-- Reply subframe for one register write result: nothing on success,
a write-error subframe otherwise. -/
def writeReply (reg err : Nat) : List Nat :=
  if err = 0 then [] else [40] ++ varuint reg ++ varuint err

/-- Reply subframe for one register read: a reply-single subframe on
success, a read-error subframe otherwise. -/
def readReply (srv : RegServer) (t reg : Nat) : List Nat :=
  match srv.read reg t with
  | .value v => [32 + t] ++ varuint reg ++ encodeValue v
  | .err e => [41] ++ varuint reg ++ varuint e

/-- Perform a run of register writes for a write-multiple subframe,
returning the concatenated error replies and the unconsumed bytes, or
none if the values are truncated. -/
def writeMulti (srv : RegServer) (t : Nat) : Nat → Nat → List Nat → Option (List Nat × List Nat)
  | _, 0, bs => some ([], bs)
  | reg, n + 1, bs =>
      if bs.length < valSize t then none
      else
        let v := decodeValue t (bs.take (valSize t))
        let e := srv.write reg v
        match writeMulti srv t (reg + 1) n (bs.drop (valSize t)) with
        | none => none
        | some (replies, rest) => some (writeReply reg e ++ replies, rest)

/-- Reply subframes for a run of register reads, one subframe per
requested register. -/
def readMulti (srv : RegServer) (t : Nat) : Nat → Nat → List (List Nat)
  | _, 0 => []
  | reg, n + 1 => readReply srv t reg :: readMulti srv t (reg + 1) n

/-- Find a tunnel by channel number. -/
def findTunnel (ts : List Tunnel) (ch : Nat) : Option Tunnel :=
  ts.find? fun t => t.channel == ch

/-- Deliver client tunnel bytes to a channel's ingress buffer and
drain its egress buffer, the drained bytes forming the 0x41 reply. -/
def tunnelAccept (ts : List Tunnel) (ch : Nat) (data : List Nat) :
    List Tunnel × List Nat :=
  match findTunnel ts ch with
  | none => (ts, [])
  | some _ =>
      (ts.map fun t =>
        if t.channel == ch then { t with ingress := t.ingress ++ data, egress := [] } else t,
       (findTunnel ts ch).map Tunnel.egress |>.getD [])

/-- Count one malformed subframe and stop dispatch. -/
def bumpMalformed (acc : DispatchOut) : DispatchOut :=
  { acc with stats := { acc.stats with malformed_subframe := acc.stats.malformed_subframe + 1 } }

/-- Count one unknown subframe and stop dispatch. -/
def bumpUnknown (acc : DispatchOut) : DispatchOut :=
  { acc with stats := { acc.stats with unknown_subframe := acc.stats.unknown_subframe + 1 } }

/-- Append a list of reply subframes, stopping at the first that no
longer fits. -/
def addReplies (cfg : Cfg) (acc : DispatchOut) : List (List Nat) → DispatchOut × Bool
  | [] => (acc, true)
  | sub :: rest =>
      match addReply cfg acc sub with
      | (acc1, true) => addReplies cfg acc1 rest
      | (acc1, false) => (acc1, false)

/-- Modelled from the spec: the subframe dispatcher of the missing
server implementation.  Walks the TLV subframes of one validated
frame: register writes invoke RegServer.write and produce write-error
subframes on failure, register reads invoke RegServer.read and
produce reply or read-error subframes, a client tunnel subframe feeds
the channel ingress buffer and always produces a server tunnel reply,
an unknown or server-to-client opcode counts unknown_subframe and
skips the rest of the payload, and a truncated subframe counts
malformed_subframe and terminates dispatch.  Fuel is the byte count of
the payload, which bounds the number of subframes. -/
def dispatchGo (cfg : Cfg) (srv : RegServer) : Nat → List Nat → DispatchOut → DispatchOut
  | 0, _, acc => acc
  | _, [], acc => acc
  | fuel + 1, bytes, acc =>
      match parseVaruint bytes with
      | none => bumpMalformed acc
      | some (op, rest) =>
        if 16 ≤ op ∧ op ≤ 19 then
          -- write single
          let t := op - 16
          match parseVaruint rest with
          | none => bumpMalformed acc
          | some (reg, rest1) =>
              if rest1.length < valSize t then bumpMalformed acc
              else
                let v := decodeValue t (rest1.take (valSize t))
                let e := srv.write reg v
                match addReply cfg acc (writeReply reg e) with
                | (acc1, true) => dispatchGo cfg srv fuel (rest1.drop (valSize t)) acc1
                | (acc1, false) => acc1
        else if 20 ≤ op ∧ op ≤ 23 then
          -- write multiple
          let t := op - 20
          match parseVaruint rest with
          | none => bumpMalformed acc
          | some (reg, rest1) =>
              match parseVaruint rest1 with
              | none => bumpMalformed acc
              | some (n, rest2) =>
                  match writeMulti srv t reg n rest2 with
                  | none => bumpMalformed acc
                  | some (replies, rest3) =>
                      match addReply cfg acc replies with
                      | (acc1, true) => dispatchGo cfg srv fuel rest3 acc1
                      | (acc1, false) => acc1
        else if 24 ≤ op ∧ op ≤ 27 then
          -- read single
          let t := op - 24
          match parseVaruint rest with
          | none => bumpMalformed acc
          | some (reg, rest1) =>
              match addReply cfg acc (readReply srv t reg) with
              | (acc1, true) => dispatchGo cfg srv fuel rest1 acc1
              | (acc1, false) => acc1
        else if 28 ≤ op ∧ op ≤ 31 then
          -- read multiple
          let t := op - 28
          match parseVaruint rest with
          | none => bumpMalformed acc
          | some (reg, rest1) =>
              match parseVaruint rest1 with
              | none => bumpMalformed acc
              | some (n, rest2) =>
                  match addReplies cfg acc (readMulti srv t reg n) with
                  | (acc1, true) => dispatchGo cfg srv fuel rest2 acc1
                  | (acc1, false) => acc1
        else if op = 64 then
          -- client tunnel data
          match parseVaruint rest with
          | none => bumpMalformed acc
          | some (ch, rest1) =>
              match parseVaruint rest1 with
              | none => bumpMalformed acc
              | some (n, rest2) =>
                  if rest2.length < n then bumpMalformed acc
                  else
                    let (ts1, egress) := tunnelAccept acc.tunnels ch (rest2.take n)
                    let sub := [65] ++ varuint ch ++ varuint egress.length ++ egress
                    match addReply cfg { acc with tunnels := ts1 } sub with
                    | (acc1, true) => dispatchGo cfg srv fuel (rest2.drop n) acc1
                    | (acc1, false) => acc1
        else
          bumpUnknown acc

/-- Dispatch all subframes of one frame payload. -/
def dispatch (cfg : Cfg) (srv : RegServer) (payload : List Nat) (st : Stats)
    (ts : List Tunnel) : DispatchOut :=
  dispatchGo cfg srv payload.length payload ⟨[], st, ts⟩

/-- Phases of the receive state machine: hunting for the first magic
byte, expecting the second, the source and destination header bytes,
the payload size varuint, the payload itself, and the two CRC
bytes. -/
inductive RxPhase where
  | hunt
  | magic2
  | source
  | dest
  | size
  | payload
  | crc1
  | crc2
deriving DecidableEq, Repr

/-- Modelled from the spec: the full decoder state of the missing
MultiplexProtocolServer implementation.  Alongside the framing phase
and its partial fields it carries everything the server delivers:
accepted frames, the Stats counters, the response bytes written back
to the stream, and the tunnel buffers. -/
structure DecState where
  phase : RxPhase
  src : Nat
  dst : Nat
  sizeAcc : Nat
  sizeCnt : Nat
  remaining : Nat
  payloadAcc : List Nat
  raw : List Nat
  crcLo : Nat
  stats : Stats
  frames : List Frame
  responses : List Nat
  tunnels : List Tunnel
deriving DecidableEq, Repr

/-- Clear the framing fields and return to hunting; counters, frames,
responses and tunnels are preserved. -/
def resetFraming (s : DecState) : DecState :=
  { s with phase := .hunt, src := 0, dst := 0, sizeAcc := 0, sizeCnt := 0,
           remaining := 0, payloadAcc := [], raw := [], crcLo := 0 }

/-- Initial decoder state for a given tunnel set. -/
def initDecState (ts : List Tunnel) : DecState :=
  ⟨.hunt, 0, 0, 0, 0, 0, [], [], 0, {}, [], [], ts⟩

/-- Serialize a response frame: magic, source, destination, payload
size varuint, payload, and the CRC-16 of the frame computed with the
CRC field held at zero. -/
def mkFrame (src dst : Nat) (payload : List Nat) : List Nat :=
  let body := [84, 171, src, dst] ++ varuint payload.length ++ payload
  body ++ u16le (crc16 (body ++ [0, 0]))

/-- Modelled from the spec: acceptance of a CRC-valid frame addressed
to this node.  The frame is delivered, its subframes are dispatched
(an empty payload counts missing_subframe), and when the source had
the response-request bit set a response frame is emitted whose source
is this node and whose destination is the requester without the high
bit. -/
def acceptFrame (cfg : Cfg) (srv : RegServer) (s : DecState) : DecState :=
  let s1 := { s with frames := s.frames ++ [Frame.mk s.src s.dst s.payloadAcc] }
  let out :=
    if s1.payloadAcc.isEmpty then
      DispatchOut.mk []
        { s1.stats with missing_subframe := s1.stats.missing_subframe + 1 }
        s1.tunnels
    else
      dispatch cfg srv s1.payloadAcc s1.stats s1.tunnels
  let s2 := { s1 with stats := out.stats, tunnels := out.tunnels }
  if 128 ≤ s1.src then
    resetFraming
      { s2 with responses := s2.responses ++ mkFrame cfg.id (s1.src % 128) out.reply }
  else
    resetFraming s2

/-- Modelled from the spec: one byte of the receive state machine.
Hunt scans for the first magic byte 0x54; a partial magic mismatch
resynchronizes without counting.  After the magic, the source and
destination bytes and the payload size varuint are accumulated; a
declared size beyond the receive buffer counts receive_overrun and
drops the frame, and a size varuint longer than five bytes is
malformed and resynchronizes.  After the payload the two CRC bytes
arrive; a mismatch counts checksum_mismatch, a frame for another node
counts wrong_id, and an accepted frame is handed to acceptFrame. -/
def feed (cfg : Cfg) (srv : RegServer) (s : DecState) (b : Nat) : DecState :=
  match s.phase with
  | .hunt =>
      if b = 84 then { resetFraming s with phase := .magic2, raw := [84] }
      else resetFraming s
  | .magic2 =>
      if b = 171 then { s with phase := .source, raw := s.raw ++ [b] }
      else if b = 84 then { resetFraming s with phase := .magic2, raw := [84] }
      else resetFraming s
  | .source => { s with phase := .dest, src := b, raw := s.raw ++ [b] }
  | .dest =>
      { s with phase := .size, dst := b, sizeAcc := 0, sizeCnt := 0, raw := s.raw ++ [b] }
  | .size =>
      let s1 := { s with raw := s.raw ++ [b] }
      if b < 128 then
        let total := s1.sizeAcc + b * 128 ^ s1.sizeCnt
        if cfg.bufferSize < total then
          resetFraming
            { s1 with stats :=
                { s1.stats with receive_overrun := s1.stats.receive_overrun + 1 } }
        else if total = 0 then { s1 with phase := .crc1 }
        else { s1 with phase := .payload, remaining := total, payloadAcc := [] }
      else if 4 ≤ s1.sizeCnt then resetFraming s1
      else
        { s1 with sizeAcc := s1.sizeAcc + (b - 128) * 128 ^ s1.sizeCnt,
                  sizeCnt := s1.sizeCnt + 1 }
  | .payload =>
      let s1 := { s with raw := s.raw ++ [b], payloadAcc := s.payloadAcc ++ [b] }
      if s.remaining ≤ 1 then { s1 with phase := .crc1, remaining := 0 }
      else { s1 with remaining := s.remaining - 1 }
  | .crc1 => { s with phase := .crc2, crcLo := b }
  | .crc2 =>
      let rx := s.crcLo + 256 * b
      if rx ≠ crc16 (s.raw ++ [0, 0]) then
        resetFraming
          { s with stats :=
              { s.stats with checksum_mismatch := s.stats.checksum_mismatch + 1 } }
      else if s.dst ≠ cfg.id then
        resetFraming
          { s with stats := { s.stats with wrong_id := s.stats.wrong_id + 1 } }
      else acceptFrame cfg srv s

/-- Feed one chunk of bytes to the decoder: the read callback of the
server walks the received buffer byte by byte. -/
def feedChunk (cfg : Cfg) (srv : RegServer) (s : DecState) (chunk : List Nat) : DecState :=
  chunk.foldl (feed cfg srv) s

/-- Feed a sequence of chunks to the decoder in order. -/
def feedChunks (cfg : Cfg) (srv : RegServer) (s : DecState)
    (chunks : List (List Nat)) : DecState :=
  chunks.foldl (feedChunk cfg srv) s

end Multiplex

namespace Tlog

/-- The writer state reached by the schema-writing unit test just
before closing; used to instantiate the general WriteData theorem. -/
def sSchema : State := run schemaOps (Open initState)

/-- The calls of the FileWriterReserveSchema unit test: reserve ids 1
and 3, then auto-allocate twenty distinct names. -/
def reserveThenAuto : List Op :=
  [.reserve [97] 1, .reserve [98] 3]
    ++ (List.range 20).map fun i =>
        .allocate ([97, 117, 116, 111] ++ (if i < 10 then [48 + i] else [48 + i / 10, 48 + i % 10]))

theorem parseVaruint_varuintGo (fuel : Nat) :
    ∀ n r, n < 128 ^ fuel → parseVaruint (varuintGo fuel n ++ r) = some (n, r) := by
  induction fuel with
  | zero =>
      intro n r h
      have hn : n = 0 := by simpa using h
      subst hn
      simp [varuintGo, parseVaruint]
  | succ fuel ih =>
      intro n r h
      by_cases hlt : n < 128
      · simp [varuintGo, hlt, parseVaruint]
      · have hdiv : n / 128 < 128 ^ fuel := by
          rw [Nat.div_lt_iff_lt_mul (by norm_num : 0 < 128)]
          calc n < 128 ^ (fuel + 1) := h
            _ = 128 ^ fuel * 128 := by ring
        have hge : ¬ n % 128 + 128 < 128 := by omega
        simp only [varuintGo, if_neg hlt, List.cons_append, parseVaruint, if_neg hge,
          ih (n / 128) r hdiv]
        congr 2
        omega

theorem parseVaruint_varuint (n : Nat) (r : List Nat) :
    parseVaruint (varuint n ++ r) = some (n, r) := by
  apply parseVaruint_varuintGo
  calc n < 2 ^ n := Nat.lt_two_pow n
    _ ≤ 128 ^ n := Nat.pow_le_pow_left (by norm_num) n
    _ ≤ 128 ^ (n + 1) := Nat.pow_le_pow_right (by norm_num) (Nat.le_succ n)

theorem u32le_length (n : Nat) : (u32le n).length = 4 := rfl

theorem u64le_length (n : Nat) : (u64le n).length = 8 := rfl

theorem decodeU32le_u32le (n : Nat) (r : List Nat) (h : n < 2 ^ 32) :
    decodeU32le (u32le n ++ r) = n := by
  simp only [u32le, decodeU32le, List.cons_append, List.getD_cons_zero, List.getD_cons_succ]
  omega

/-- Dropping everything but the final segment of an append recovers
that segment. -/
theorem drop_length_sub {α : Type} (a b : List α) :
    (a ++ b).drop ((a ++ b).length - b.length) = b := by
  rw [List.length_append, Nat.add_sub_cancel, List.drop_left]

theorem indexBlock_length (es : List Entry) :
    (indexBlock es).length = indexTrailerTotal es := by
  simp only [indexBlock, indexTrailerTotal, indexSize, List.length_append, u32le_length,
    kIdexMagic, List.length_cons, List.length_nil]
  omega

theorem step_isOpen (s : State) (op : Op) : (step s op).isOpen = s.isOpen := by
  cases op with
  | allocate n =>
      simp only [step, AllocateIdentifier]
      cases lookupName s.bindings n <;> rfl
  | reserve n i =>
      simp only [step, ReserveIdentifier]
      split <;> rfl
  | writeSchema i sch =>
      simp only [step, WriteSchema]
      split
      · rfl
      split
      · rfl
      split
      · rfl
      split <;> rfl
  | writeData ts i p =>
      simp only [step, WriteData]
      split
      · rfl
      split
      · rfl
      split <;> rfl
  | writeBlock t b =>
      simp only [step, WriteBlock]
      split <;> rfl

theorem run_isOpen (ops : List Op) (s : State) : (run ops s).isOpen = s.isOpen := by
  induction ops generalizing s with
  | nil => rfl
  | cons op ops ih =>
      show (run ops (step s op)).isOpen = s.isOpen
      rw [ih, step_isOpen]

theorem runOpen_isOpen (ops : List Op) : (run ops (Open initState)).isOpen = true := by
  rw [run_isOpen]; rfl

theorem emittedFile_eq (ops : List Op) :
    emittedFile ops = (run ops (Open initState)).file ++ indexBlock (entriesAfter ops) := by
  unfold emittedFile entriesAfter Close
  rw [runOpen_isOpen]
  simp

theorem filter_length_mono (n : Nat) (l : List Nat) :
    (l.filter fun x => decide (n + 1 ≤ x)).length ≤ (l.filter fun x => decide (n ≤ x)).length := by
  induction l with
  | nil => simp
  | cons a t ih =>
      have hih := ih
      by_cases h1 : n + 1 ≤ a
      · have h0 : n ≤ a := by omega
        simp [List.filter_cons, h1, h0]
        omega
      · by_cases h0 : n ≤ a <;> simp [List.filter_cons, h1, h0] <;> omega

theorem filter_length_lt (n : Nat) (l : List Nat) (h : n ∈ l) :
    (l.filter fun x => decide (n + 1 ≤ x)).length < (l.filter fun x => decide (n ≤ x)).length := by
  induction l with
  | nil => cases h
  | cons a t ih =>
      have hmono := filter_length_mono n t
      rcases List.mem_cons.mp h with ha | ht
      · subst ha
        have h1 : ¬ n + 1 ≤ n := by omega
        simp [List.filter_cons, h1]
        omega
      · have hih := ih ht
        by_cases h1 : n + 1 ≤ a
        · have h0 : n ≤ a := by omega
          simp [List.filter_cons, h1, h0]
          omega
        · by_cases h0 : n ≤ a <;> simp [List.filter_cons, h1, h0] <;> omega

theorem freshIdGo_spec (taken : List Nat) :
    ∀ fuel n, (taken.filter fun x => decide (n ≤ x)).length < fuel →
      freshIdGo taken n fuel ∉ taken ∧ n ≤ freshIdGo taken n fuel := by
  intro fuel
  induction fuel with
  | zero => intro n h; omega
  | succ fuel ih =>
      intro n h
      by_cases hc : taken.contains n
      · have hn : n ∈ taken := by
          exact List.elem_iff.mp hc
        have hlt := filter_length_lt n taken hn
        have ⟨hmem, hle⟩ := ih (n + 1) (by omega)
        simp only [freshIdGo, hc, if_true]
        exact ⟨hmem, by omega⟩
      · simp only [freshIdGo, hc, if_false]
        constructor
        · intro hmem
          exact hc (List.elem_iff.mpr hmem)
        · exact Nat.le_refl n

theorem freshId_spec (taken : List Nat) :
    freshId taken ∉ taken ∧ 1 ≤ freshId taken := by
  apply freshIdGo_spec
  have := List.length_filter_le (fun x => decide (1 ≤ x)) taken
  omega

theorem lookupName_mem (bs : List (List Nat × Nat)) (name : List Nat) (i : Nat)
    (h : lookupName bs name = some i) : (name, i) ∈ bs := by
  induction bs with
  | nil => cases h
  | cons p t ih =>
      cases p with
      | mk n j =>
          by_cases hn : n = name
          · subst hn
            simp only [lookupName, if_pos rfl] at h
            cases h
            exact List.mem_cons_self _ _
          · simp only [lookupName, if_neg hn] at h
            exact List.mem_cons_of_mem _ (ih h)

theorem lookupName_none_fst (bs : List (List Nat × Nat)) (name : List Nat)
    (h : lookupName bs name = none) : name ∉ bs.map Prod.fst := by
  induction bs with
  | nil => simp
  | cons p t ih =>
      cases p with
      | mk n j =>
          by_cases hn : n = name
          · subst hn; simp [lookupName] at h
          · simp only [lookupName, if_neg hn] at h
            simp only [List.map_cons, List.mem_cons]
            rintro (rfl | hm)
            · exact hn rfl
            · exact ih h hm

theorem lookupName_append_self (bs : List (List Nat × Nat)) (name : List Nat) (i : Nat)
    (h : lookupName bs name = none) :
    lookupName (bs ++ [(name, i)]) name = some i := by
  induction bs with
  | nil => simp [lookupName]
  | cons p t ih =>
      cases p with
      | mk n j =>
          by_cases hn : n = name
          · subst hn; simp [lookupName] at h
          · simp only [lookupName, if_neg hn] at h ⊢
            exact ih h

theorem lookupName_append_ne (bs : List (List Nat × Nat)) (name other : List Nat) (i : Nat)
    (h : other ≠ name) :
    lookupName (bs ++ [(name, i)]) other = lookupName bs other := by
  induction bs with
  | nil => simp [lookupName, Ne.symm h]
  | cons p t ih =>
      cases p with
      | mk n j =>
          by_cases hn : n = other
          · simp [lookupName, hn]
          · simp only [lookupName, if_neg hn, List.cons_append]
            exact ih

theorem nodup_snd_eq (bs : List (List Nat × Nat)) (n m : List Nat) (i : Nat)
    (hnd : (bs.map Prod.snd).Nodup) (h1 : (n, i) ∈ bs) (h2 : (m, i) ∈ bs) : n = m := by
  induction bs with
  | nil => cases h1
  | cons p t ih =>
      cases p with
      | mk a b =>
          simp only [List.map_cons, List.nodup_cons] at hnd
          rcases List.mem_cons.mp h1 with e1 | m1
          · rcases List.mem_cons.mp h2 with e2 | m2
            · cases e1; cases e2; rfl
            · cases e1
              exact absurd (List.mem_map_of_mem Prod.snd m2) hnd.1
          · rcases List.mem_cons.mp h2 with e2 | m2
            · cases e2
              exact absurd (List.mem_map_of_mem Prod.snd m1) hnd.1
            · exact ih hnd.2 m1 m2

theorem WriteSchema_idState (id : Nat) (sch : List Nat) (s : State) :
    (WriteSchema id sch s).bindings = s.bindings
      ∧ (WriteSchema id sch s).reservedIds = s.reservedIds := by
  unfold WriteSchema
  split
  · exact ⟨rfl, rfl⟩
  split
  · exact ⟨rfl, rfl⟩
  split
  · exact ⟨rfl, rfl⟩
  split <;> exact ⟨rfl, rfl⟩

theorem WriteData_idState (ts : Int) (id : Nat) (p : List Nat) (s : State) :
    (WriteData ts id p s).bindings = s.bindings
      ∧ (WriteData ts id p s).reservedIds = s.reservedIds := by
  unfold WriteData
  split
  · exact ⟨rfl, rfl⟩
  split
  · exact ⟨rfl, rfl⟩
  split <;> exact ⟨rfl, rfl⟩

theorem WriteBlock_idState (t : Nat) (b : List Nat) (s : State) :
    (WriteBlock t b s).bindings = s.bindings
      ∧ (WriteBlock t b s).reservedIds = s.reservedIds := by
  unfold WriteBlock
  split <;> exact ⟨rfl, rfl⟩

theorem WF_of_idState {s t : State} (hb : t.bindings = s.bindings)
    (hr : t.reservedIds = s.reservedIds) (h : WF s) : WF t := by
  unfold WF at h ⊢
  rw [hb, hr]
  exact h

/-- AllocateIdentifier on an unbound name extends the bindings with a
fresh identifier. -/
theorem alloc_none (name : List Nat) (s : State)
    (h : lookupName s.bindings name = none) :
    (AllocateIdentifier name s).1 = freshId (s.bindings.map Prod.snd)
      ∧ (AllocateIdentifier name s).2.bindings
          = s.bindings ++ [(name, freshId (s.bindings.map Prod.snd))]
      ∧ (AllocateIdentifier name s).2.reservedIds = s.reservedIds := by
  unfold AllocateIdentifier
  rw [h]
  exact ⟨rfl, rfl, rfl⟩

/-- AllocateIdentifier on a bound name returns its identifier and
leaves the state unchanged. -/
theorem alloc_some (name : List Nat) (s : State) (i : Nat)
    (h : lookupName s.bindings name = some i) :
    (AllocateIdentifier name s).1 = i ∧ (AllocateIdentifier name s).2 = s := by
  unfold AllocateIdentifier
  rw [h]
  exact ⟨rfl, rfl⟩

/-- After AllocateIdentifier, the name is bound to the returned
identifier. -/
theorem alloc_lookup (name : List Nat) (s : State) :
    lookupName (AllocateIdentifier name s).2.bindings name
      = some (AllocateIdentifier name s).1 := by
  cases h : lookupName s.bindings name with
  | some i =>
      have ⟨h1, h2⟩ := alloc_some name s i h
      rw [h1, h2, h]
  | none =>
      have ⟨h1, h2, _⟩ := alloc_none name s h
      rw [h1, h2]
      exact lookupName_append_self _ _ _ h

theorem WF_step (s : State) (op : Op) (h : WF s) : WF (step s op) := by
  obtain ⟨hf, hs, hr, h1⟩ := h
  cases op with
  | allocate name =>
      show WF (AllocateIdentifier name s).2
      cases hl : lookupName s.bindings name with
      | some i => rw [(alloc_some name s i hl).2]; exact ⟨hf, hs, hr, h1⟩
      | none =>
          have ⟨_, hb, hres⟩ := alloc_none name s hl
          have hfresh := freshId_spec (s.bindings.map Prod.snd)
          constructor
          · rw [hb]
            simp only [List.map_append, List.map_cons, List.map_nil]
            rw [List.nodup_append]
            refine ⟨hf, List.nodup_singleton _, ?_⟩
            intro a ha hmem
            simp only [List.mem_singleton] at hmem
            exact lookupName_none_fst s.bindings name hl (hmem ▸ ha)
          constructor
          · rw [hb]
            simp only [List.map_append, List.map_cons, List.map_nil]
            rw [List.nodup_append]
            refine ⟨hs, List.nodup_singleton _, ?_⟩
            intro a ha hmem
            simp only [List.mem_singleton] at hmem
            exact hfresh.1 (hmem ▸ ha)
          constructor
          · intro i hi
            rw [hb, List.map_append]
            exact List.mem_append_left _ (hr i (by rwa [hres] at hi))
          · intro i hi
            rw [hb, List.map_append] at hi
            rcases List.mem_append.mp hi with hi | hi
            · exact h1 i hi
            · simp only [List.map_cons, List.map_nil, List.mem_singleton] at hi
              subst hi
              exact hfresh.2
  | reserve name id =>
      show WF (ReserveIdentifier name id s).2
      unfold ReserveIdentifier
      split
      · exact ⟨hf, hs, hr, h1⟩
      · rename_i hcond
        rw [Bool.or_eq_true, Bool.or_eq_true, Bool.or_eq_true, decide_eq_true_eq,
          decide_eq_true_eq] at hcond
        push_neg at hcond
        obtain ⟨⟨⟨hsome, hcontains⟩, hid0⟩, _⟩ := hcond
        have hl : lookupName s.bindings name = none := by
          cases hq : lookupName s.bindings name with
          | none => rfl
          | some i => exact absurd (by rw [hq]; rfl) hsome
        have hid : id ∉ s.bindings.map Prod.snd := by
          intro hmem
          exact hcontains (List.elem_iff.mpr hmem)
        constructor
        · simp only [List.map_append, List.map_cons, List.map_nil]
          rw [List.nodup_append]
          refine ⟨hf, List.nodup_singleton _, ?_⟩
          intro a ha hmem
          simp only [List.mem_singleton] at hmem
          exact lookupName_none_fst s.bindings name hl (hmem ▸ ha)
        constructor
        · simp only [List.map_append, List.map_cons, List.map_nil]
          rw [List.nodup_append]
          refine ⟨hs, List.nodup_singleton _, ?_⟩
          intro a ha hmem
          simp only [List.mem_singleton] at hmem
          exact hid (hmem ▸ ha)
        constructor
        · intro i hi
          simp only [List.map_append, List.map_cons, List.map_nil]
          rcases List.mem_append.mp hi with hi | hi
          · exact List.mem_append_left _ (hr i hi)
          · simp only [List.mem_singleton] at hi
            subst hi
            exact List.mem_append_right _ (List.mem_singleton.mpr rfl)
        · intro i hi
          simp only [List.map_append, List.map_cons, List.map_nil] at hi
          rcases List.mem_append.mp hi with hi | hi
          · exact h1 i hi
          · simp only [List.mem_singleton] at hi
            omega
  | writeSchema i sch =>
      have := WriteSchema_idState i sch s
      exact WF_of_idState this.1 this.2 ⟨hf, hs, hr, h1⟩
  | writeData ts i p =>
      have := WriteData_idState ts i p s
      exact WF_of_idState this.1 this.2 ⟨hf, hs, hr, h1⟩
  | writeBlock t b =>
      have := WriteBlock_idState t b s
      exact WF_of_idState this.1 this.2 ⟨hf, hs, hr, h1⟩

theorem WF_run (ops : List Op) (s : State) (h : WF s) : WF (run ops s) := by
  induction ops generalizing s with
  | nil => exact h
  | cons op ops ih =>
      show WF (run ops (step s op))
      exact ih _ (WF_step s op h)

theorem WF_initState : WF initState := by
  refine ⟨List.nodup_nil, List.nodup_nil, ?_, ?_⟩ <;> intro i hi <;> cases hi

theorem WF_Open (s : State) (h : WF s) : WF (Open s) := by
  have hb : (Open s).bindings = s.bindings := by unfold Open; split <;> rfl
  have hr : (Open s).reservedIds = s.reservedIds := by unfold Open; split <;> rfl
  exact WF_of_idState hb hr h

end Tlog

namespace Tlog

theorem varuint_zero : varuint 0 = [0] := rfl

/-- AllocateIdentifier never touches the file or the open flag. -/
theorem alloc_pure (name : List Nat) (s : State) :
    (AllocateIdentifier name s).2.file = s.file
      ∧ (AllocateIdentifier name s).2.isOpen = s.isOpen := by
  unfold AllocateIdentifier
  split <;> exact ⟨rfl, rfl⟩

/-- ReserveIdentifier never touches the file or the open flag. -/
theorem reserve_pure (name : List Nat) (id : Nat) (s : State) :
    (ReserveIdentifier name id s).2.file = s.file
      ∧ (ReserveIdentifier name id s).2.isOpen = s.isOpen := by
  unfold ReserveIdentifier
  split <;> exact ⟨rfl, rfl⟩

/-- Identifier-only call sequences never touch the file or the open
flag. -/
theorem idops_preserve (l : List IdOp) :
    ∀ s : State, (run (l.map IdOp.toOp) s).file = s.file
      ∧ (run (l.map IdOp.toOp) s).isOpen = s.isOpen := by
  induction l with
  | nil => intro s; exact ⟨rfl, rfl⟩
  | cons op t ih =>
      intro s
      have hstep : (step s op.toOp).file = s.file ∧ (step s op.toOp).isOpen = s.isOpen := by
        cases op with
        | allocate n => exact alloc_pure n s
        | reserve n i => exact reserve_pure n i s
      have hrest := ih (step s op.toOp)
      simp only [List.map_cons]
      show (run (t.map IdOp.toOp) (step s op.toOp)).file = s.file
        ∧ (run (t.map IdOp.toOp) (step s op.toOp)).isOpen = s.isOpen
      exact ⟨hrest.1.trans hstep.1, hrest.2.trans hstep.2⟩

/-- The two reservations followed by twenty automatic allocations of
the FileWriterReserveSchema unit test. -/
def sReserve : State := run [Op.reserve [97] 1, Op.reserve [98] 3] initState

/-- Claim C1, counterexample: the file written by an opened and
immediately closed writer is the byte sequence the claim lists, but
that sequence is 25 bytes long, not 31 as the claim asserts. -/
theorem claim_C1_counterexample :
    emittedFile [] = kEmptyLog ∧ (emittedFile []).length = 25
      ∧ ¬ (emittedFile []).length = 31 := by
  decide

/-- Claim C1, amended: a fresh writer that is opened and immediately
closed produces exactly the 25-byte sequence 54 4C 4F 47 30 30 30 33
00 03 0E 00 00 10 00 00 00 54 4C 4F 47 49 44 45 58. -/
theorem claim_C1_empty_log :
    emittedFile [] = kEmptyLog ∧ kEmptyLog.length = 25 := by
  decide

/-- Claim C2: for every call sequence on a fresh opened writer the
emitted file ends with a little-endian u32 followed by the magic
TLOGIDEX, the u32 equals the byte distance from the Index block type
byte through the end of the magic, and seeking backward from the end
of file by that distance lands exactly on the Index block, whose first
byte is the type 3; the distance is 16 for the empty log and 33 (0x21)
for the one-schema log. -/
theorem claim_C2_trailer_footer :
    (∀ ops : List Op, trailerSize ops < 2 ^ 32 →
        (emittedFile ops).drop ((emittedFile ops).length - 12)
            = u32le (trailerSize ops) ++ kIdexMagic
          ∧ decodeU32le ((emittedFile ops).drop ((emittedFile ops).length - 12))
              = trailerSize ops
          ∧ (emittedFile ops).drop ((emittedFile ops).length - trailerSize ops)
              = indexBlock (entriesAfter ops)
          ∧ (indexBlock (entriesAfter ops)).head? = some 3)
      ∧ trailerSize [] = 16 ∧ trailerSize schemaOps = 33 := by
  refine ⟨?_, by decide, by decide⟩
  intro ops h
  have hfile := emittedFile_eq ops
  have hts : trailerSize ops = indexTrailerTotal (entriesAfter ops) :=
    indexBlock_length (entriesAfter ops)
  have hdecomp : indexBlock (entriesAfter ops)
      = ([3] ++ varuint (indexSize (entriesAfter ops)) ++ indexCore (entriesAfter ops))
        ++ (u32le (indexTrailerTotal (entriesAfter ops)) ++ kIdexMagic) := by
    simp [indexBlock, List.append_assoc]
  have h12 : (u32le (indexTrailerTotal (entriesAfter ops)) ++ kIdexMagic).length = 12 := by
    simp [u32le, kIdexMagic]
  have key := drop_length_sub
    ((run ops (Open initState)).file
      ++ ([3] ++ varuint (indexSize (entriesAfter ops)) ++ indexCore (entriesAfter ops)))
    (u32le (indexTrailerTotal (entriesAfter ops)) ++ kIdexMagic)
  rw [h12] at key
  have hfull : emittedFile ops
      = ((run ops (Open initState)).file
          ++ ([3] ++ varuint (indexSize (entriesAfter ops)) ++ indexCore (entriesAfter ops)))
        ++ (u32le (indexTrailerTotal (entriesAfter ops)) ++ kIdexMagic) := by
    rw [hfile, hdecomp, ← List.append_assoc]
  refine ⟨?_, ?_, ?_, ?_⟩
  · rw [hfull, key, hts]
  · rw [hfull, key, hts]
    exact decodeU32le_u32le _ _ (hts ▸ h)
  · have key2 := drop_length_sub (run ops (Open initState)).file
      (indexBlock (entriesAfter ops))
    rw [← indexBlock_length (entriesAfter ops)] at hts
    rw [hfile]
    rw [show trailerSize ops = (indexBlock (entriesAfter ops)).length from rfl]
    exact key2
  · simp [indexBlock]

/-- Claim C2 witness at the one-schema log. -/
theorem claim_C2_witness :
    trailerSize schemaOps < 2 ^ 32
      ∧ (emittedFile schemaOps).drop ((emittedFile schemaOps).length - 12)
          = u32le (trailerSize schemaOps) ++ kIdexMagic :=
  ⟨by decide, ((claim_C2_trailer_footer.1 schemaOps (by decide)).1)⟩

/-- Claim C3, counterexample: in the empty log the Index block size
varuint (the byte at offset 10) is 14, while the claim predicts 2
(the length of flags plus nelements alone); the emitted size counts
the 12-byte footer as part of the block body. -/
theorem claim_C3_counterexample :
    ((emittedFile []).drop 9).take 2 = [3, 14]
      ∧ (indexCore (entriesAfter [])).length = 2
      ∧ ¬ (14 : Nat) = 2 := by
  decide

/-- Claim C3, amended: the Index block size varuint equals the byte
length of flags, nelements and the entries plus the 12-byte footer,
which is counted inside the block body; an empty index therefore has
size 14 and a one-entry index with a one-byte id varuint has size
31. -/
theorem claim_C3_index_size :
    (∀ ops : List Op,
        parseVaruint ((indexBlock (entriesAfter ops)).drop 1)
            = some (indexSize (entriesAfter ops),
                indexCore (entriesAfter ops)
                  ++ (u32le (indexTrailerTotal (entriesAfter ops)) ++ kIdexMagic))
          ∧ indexSize (entriesAfter ops) = (indexCore (entriesAfter ops)).length + 12
          ∧ (u32le (indexTrailerTotal (entriesAfter ops)) ++ kIdexMagic).length = 12)
      ∧ indexSize (entriesAfter []) = 14 ∧ indexSize (entriesAfter schemaOps) = 31 := by
  refine ⟨?_, by decide, by decide⟩
  intro ops
  refine ⟨?_, rfl, by simp [u32le, kIdexMagic]⟩
  have hdrop : (indexBlock (entriesAfter ops)).drop 1
      = varuint (indexSize (entriesAfter ops))
        ++ (indexCore (entriesAfter ops)
            ++ (u32le (indexTrailerTotal (entriesAfter ops)) ++ kIdexMagic)) := by
    simp [indexBlock, List.append_assoc]
  rw [hdrop, parseVaruint_varuint]

/-- Claim C4: for every call sequence the file left behind when the
writer goes out of scope without Close is byte-identical to the file
left behind by an explicit Close followed by scope end, and both equal
the emitted file with its Index block and footer. -/
theorem claim_C4_destructor :
    ∀ ops : List Op,
      (Destruct (run ops (Open initState))).file
          = (Destruct (Close (run ops (Open initState)))).file
        ∧ (Destruct (run ops (Open initState))).file = emittedFile ops := by
  intro ops
  have ho := runOpen_isOpen ops
  have h1 : Destruct (run ops (Open initState)) = Close (run ops (Open initState)) := by
    unfold Destruct
    rw [ho]
    simp
  have h2 : (Close (run ops (Open initState))).isOpen = false := by
    unfold Close
    rw [ho]
    simp
  have h3 : Destruct (Close (run ops (Open initState)))
      = Close (run ops (Open initState)) := by
    unfold Destruct
    rw [h2]
    simp
  rw [h1, h3]
  exact ⟨rfl, rfl⟩

/-- Claim C5, counterexample: AllocateIdentifier of a name that was
itself previously bound through ReserveIdentifier returns that
reserved identifier, so an identifier returned by AllocateIdentifier
can equal a previously reserved one. -/
theorem claim_C5_counterexample :
    (ReserveIdentifier [97] 1 initState).1 = true
      ∧ 1 ∈ (ReserveIdentifier [97] 1 initState).2.reservedIds
      ∧ (AllocateIdentifier [97] (ReserveIdentifier [97] 1 initState).2).1 = 1 := by
  decide

/-- Claim C5, amended: every state reached by any interleaving of
calls is well formed; on a well-formed state AllocateIdentifier is
idempotent per name, two distinct names receive distinct identifiers,
and AllocateIdentifier of a name that is not already bound never
returns an identifier previously bound through ReserveIdentifier; in
the reserve-1-and-3-then-allocate-twenty scenario all bound
identifiers are distinct and none of the twenty automatic ones is 1
or 3. -/
theorem claim_C5_allocation :
    (∀ ops : List Op, WF (run ops initState) ∧ WF (run ops (Open initState)))
      ∧ (∀ (s : State) (name : List Nat),
          (AllocateIdentifier name (AllocateIdentifier name s).2).1
            = (AllocateIdentifier name s).1)
      ∧ (∀ (s : State) (name other : List Nat), WF s → other ≠ name →
          (AllocateIdentifier other (AllocateIdentifier name s).2).1
            ≠ (AllocateIdentifier name s).1)
      ∧ (∀ (s : State) (name : List Nat) (id : Nat), WF s →
          lookupName s.bindings name = none → id ∈ s.reservedIds →
          (AllocateIdentifier name s).1 ≠ id)
      ∧ ((run reserveThenAuto initState).bindings.map Prod.snd).Nodup
      ∧ (∀ i ∈ ((run reserveThenAuto initState).bindings.map Prod.snd).drop 2,
          ¬ i = 1 ∧ ¬ i = 3) := by
  refine ⟨?_, ?_, ?_, ?_, by decide, by decide⟩
  · intro ops
    exact ⟨WF_run ops initState WF_initState,
      WF_run ops (Open initState) (WF_Open initState WF_initState)⟩
  · intro s name
    exact (alloc_some name _ _ (alloc_lookup name s)).1
  · intro s name other hWF hne
    have hWF1 : WF (AllocateIdentifier name s).2 := WF_step s (.allocate name) hWF
    have hmem1 : (name, (AllocateIdentifier name s).1)
        ∈ (AllocateIdentifier name s).2.bindings :=
      lookupName_mem _ _ _ (alloc_lookup name s)
    cases h2 : lookupName (AllocateIdentifier name s).2.bindings other with
    | some j =>
        rw [(alloc_some other _ j h2).1]
        intro hcontra
        have hmem2 : (other, j) ∈ (AllocateIdentifier name s).2.bindings :=
          lookupName_mem _ _ _ h2
        have hmem1j : (name, j) ∈ (AllocateIdentifier name s).2.bindings := by
          rw [hcontra]
          exact hmem1
        exact hne (nodup_snd_eq _ other name j hWF1.2.1 hmem2 hmem1j)
    | none =>
        rw [(alloc_none other _ h2).1]
        intro hcontra
        have hid : (AllocateIdentifier name s).1
            ∈ (AllocateIdentifier name s).2.bindings.map Prod.snd :=
          List.mem_map_of_mem Prod.snd hmem1
        rw [← hcontra] at hid
        exact (freshId_spec _).1 hid
  · intro s name id hWF hl hres
    rw [(alloc_none name s hl).1]
    intro hcontra
    have hid := hWF.2.2.1 id hres
    rw [← hcontra] at hid
    exact (freshId_spec _).1 hid

/-- Claim C5 witness: two reservations, then idempotence, distinct
names and reservation avoidance at concrete inputs. -/
theorem claim_C5_witness :
    (AllocateIdentifier [120] (AllocateIdentifier [120] sReserve).2).1
        = (AllocateIdentifier [120] sReserve).1
      ∧ (AllocateIdentifier [121] (AllocateIdentifier [120] sReserve).2).1
          ≠ (AllocateIdentifier [120] sReserve).1
      ∧ (AllocateIdentifier [120] sReserve).1 ≠ 1 :=
  ⟨claim_C5_allocation.2.1 sReserve [120],
   claim_C5_allocation.2.2.1 sReserve [120] [121] (by decide) (by decide),
   claim_C5_allocation.2.2.2.1 sReserve [120] 1 (by decide) (by decide) (by decide)⟩

/-- Claim C6, counterexample: in the uncompressed-data unit test the
first Data block for the identifier carries flags byte 3 (bit 0, the
previous-offset-present bit, is set) and an explicit previous-offset
varuint byte 0, contradicting the claim that bit 0 is clear and the
previous-offset varuint absent for a first write. -/
theorem claim_C6_counterexample :
    ((emittedFile dataOps).drop 28).take 5 = [2, 19, 1, 3, 0]
      ∧ Nat.testBit 3 0 = true
      ∧ ¬ Nat.testBit 3 0 = false := by
  decide

/-- Claim C6, amended: for the first WriteData on an identifier (no
previous data block) the emitted Data block has flags byte 3 with bit
0 set and carries an explicit previous-offset varuint equal to 0,
followed by the timestamp and the payload. -/
theorem claim_C6_first_data :
    ∀ (s : State) (ts : Int) (id : Nat) (payload : List Nat) (e : Entry),
      s.isOpen = true →
      s.entries.find? (fun x => x.id == id) = some e →
      e.schemaOffset.isSome = true →
      e.finalRecordOffset = none →
      (WriteData ts id payload s).file
          = s.file ++ [2]
            ++ varuint (varuint id ++ [3] ++ [0] ++ i64le ts ++ payload).length
            ++ (varuint id ++ [3] ++ [0] ++ i64le ts ++ payload)
        ∧ (WriteData ts id payload s).entries = setFinalOffset s.entries id s.file.length
        ∧ Nat.testBit 3 0 = true := by
  intro s ts id payload e hopen hfind hsch hfin
  obtain ⟨v, hv⟩ := Option.isSome_iff_exists.mp hsch
  have hnone : e.schemaOffset.isNone = false := by rw [hv]; rfl
  unfold WriteData
  rw [hopen, hfind]
  simp only [Bool.not_true, Bool.false_eq_true, if_false, hnone, hfin, varuint_zero]
  refine ⟨?_, ?_, ?_⟩ <;> trivial

/-- Claim C6 witness at the state reached by the schema-writing
calls. -/
theorem claim_C6_witness :
    (WriteData 0 1 [7] sSchema).file
        = sSchema.file ++ [2]
          ++ varuint (varuint 1 ++ [3] ++ [0] ++ i64le 0 ++ [7]).length
          ++ (varuint 1 ++ [3] ++ [0] ++ i64le 0 ++ [7])
      ∧ (WriteData 0 1 [7] sSchema).entries
          = setFinalOffset sSchema.entries 1 sSchema.file.length
      ∧ Nat.testBit 3 0 = true :=
  claim_C6_first_data sSchema 0 1 [7] ⟨1, some 9, none⟩
    (by decide) (by decide) (by decide) (by decide)

set_option maxRecDepth 100000 in
/-- Claim C7: with compression disabled, after allocating the name
test, writing the schema testschema and one datum testdata stamped
2020-03-10 00:00:00 UTC, the emitted file equals the unit test's
expected bytes; the timestamp microsecond count is 1583798400000000,
serialized little-endian as 00 20 07 CD 74 A0 05 00 at offset 33, the
Data block starts at absolute offset 28 = 0x1C, and the index entry
records final record offset 28. -/
theorem claim_C7_timestamp_offset :
    emittedFile dataOps = kDataLog
      ∧ microsSinceEpoch 2020 3 10 0 0 0 = 1583798400000000
      ∧ i64le (microsSinceEpoch 2020 3 10 0 0 0) = [0, 32, 7, 205, 116, 160, 5, 0]
      ∧ ((emittedFile dataOps).drop 33).take 8 = [0, 32, 7, 205, 116, 160, 5, 0]
      ∧ ((emittedFile dataOps).drop 28).take 1 = [2]
      ∧ entriesAfter dataOps = [⟨1, some 9, some 28⟩] := by
  refine ⟨by decide, by decide, by decide, by decide, by decide, by decide⟩

set_option maxRecDepth 100000 in
/-- Claim C8: WriteBlock emits the caller's buffer as a block but
changes none of the identifier or index bookkeeping; in the
raw-Data-block unit test the emitted file matches the expected bytes
and the identifier's final record offset stays unset, serialized as
eight 0xFF bytes. -/
theorem claim_C8_writeblock :
    (∀ (s : State) (t : Nat) (buf : List Nat),
        (WriteBlock t buf s).bindings = s.bindings
          ∧ (WriteBlock t buf s).entries = s.entries
          ∧ (WriteBlock t buf s).reservedIds = s.reservedIds
          ∧ (WriteBlock t buf s).isOpen = s.isOpen)
      ∧ emittedFile writeBlockOps = kWriteBlockLog
      ∧ entriesAfter writeBlockOps = [⟨1, some 9, none⟩]
      ∧ ((emittedFile writeBlockOps).drop 49).take 8
          = [255, 255, 255, 255, 255, 255, 255, 255] := by
  refine ⟨?_, by decide, by decide, by decide⟩
  intro s t buf
  unfold WriteBlock
  split <;> exact ⟨rfl, rfl, rfl, rfl⟩

/-- Claim C10: AllocateIdentifier and ReserveIdentifier never touch
the file or the open flag, and a default-constructed writer that is
never opened supports any identifier-only call sequence, ending with
an empty file, a closed flag, and well-formed identifier state. -/
theorem claim_C10_unopened_allocation :
    (∀ (s : State) (name : List Nat),
        (AllocateIdentifier name s).2.file = s.file
          ∧ (AllocateIdentifier name s).2.isOpen = s.isOpen)
      ∧ (∀ (s : State) (name : List Nat) (id : Nat),
          (ReserveIdentifier name id s).2.file = s.file
            ∧ (ReserveIdentifier name id s).2.isOpen = s.isOpen)
      ∧ (∀ l : List IdOp,
          (run (l.map IdOp.toOp) initState).file = []
            ∧ (run (l.map IdOp.toOp) initState).isOpen = false
            ∧ WF (run (l.map IdOp.toOp) initState)) := by
  refine ⟨fun s name => alloc_pure name s, fun s name id => reserve_pure name id s, ?_⟩
  intro l
  have h := idops_preserve l initState
  exact ⟨h.1, h.2, WF_run _ initState WF_initState⟩

end Tlog

namespace Multiplex

/-- Claim C9: feeding a byte sequence to the frame decoder one byte at
a time leaves the decoder in the same state as feeding it in a single
chunk; in particular the delivered frames, the Stats counters, and the
response bytes coincide. -/
theorem claim_C9_chunking :
    ∀ (cfg : Cfg) (srv : RegServer) (s : DecState) (bs : List Nat),
      feedChunks cfg srv s (bs.map fun b => [b]) = feedChunk cfg srv s bs
        ∧ (feedChunks cfg srv s (bs.map fun b => [b])).frames
            = (feedChunk cfg srv s bs).frames
        ∧ (feedChunks cfg srv s (bs.map fun b => [b])).stats
            = (feedChunk cfg srv s bs).stats
        ∧ (feedChunks cfg srv s (bs.map fun b => [b])).responses
            = (feedChunk cfg srv s bs).responses := by
  intro cfg srv s bs
  have key : ∀ (l : List Nat) (t : DecState),
      feedChunks cfg srv t (l.map fun b => [b]) = feedChunk cfg srv t l := by
    intro l
    induction l with
    | nil => intro t; rfl
    | cons b rest ih =>
        intro t
        simp only [List.map_cons, feedChunks, feedChunk, List.foldl_cons]
        exact ih (feed cfg srv t b)
  exact ⟨key bs s, by rw [key bs s], by rw [key bs s], by rw [key bs s]⟩

end Multiplex
